import Mathlib

/-!
Verification development for the GRASS-GIS-SOS-tools observation parsing and
temporal-aggregation pipeline.

The definitions below are a shallow embedding of the Python source:
* `soslib.py` (`xml2geojson`, `json2geojson`, `standardize_table_name`,
  `get_target_crs`),
* the interval-bucketing and aggregation loops shared by
  `v.in.sos.py` (`maps_rows_sensors`) and `r.in.sos.py` (`full_maps`).

Modelling conventions: Python ints are `ℤ` (epoch seconds may be negative),
Python floats are exact rationals `ℚ`, Python strings are `String` (character
level manipulations use `List Char`), a Python function that can raise is
embedded in `Except String` or `Option`, and Python's `None`-able variables
are `Option`.
-/

set_option maxRecDepth 4000

/-! ### Python primitives -/

/-- Python's `range(start, stop, step)` for integer arguments and a positive
step: yields `start, start + step, ...` while the value is `< stop`.
(For a non-positive step with `start < stop` CPython yields nothing as well
once `step > 0` fails; the guard reflects that this embedding is only used
with positive steps.) -/
def pyRange (start stop step : ℤ) : List ℤ :=
  if _h : start < stop ∧ 0 < step then
    start :: pyRange (start + step) stop step
  else
    []
termination_by (stop - start).toNat
decreasing_by
  simp_wf
  omega

/-- Python's built-in `sum` on a list of floats: a left fold of `+` from `0`. -/
def pySum (values : List ℚ) : ℚ :=
  values.foldl (fun acc v => acc + v) 0

/-- Python's substring test `needle in hay`. -/
def pyIn (needle hay : String) : Bool :=
  decide (needle.toList <:+: hay.toList)

/-- Python's `str.split(c)` for a single-character separator, at the
character-list level: splits on every occurrence of `c`, keeping empty
parts (so the result is never empty). -/
def splitOnChar (c : Char) : List Char → List (List Char)
  | [] => [[]]
  | x :: xs =>
    if x = c then
      [] :: splitOnChar c xs
    else
      match splitOnChar c xs with
      | [] => [[x]]
      | p :: ps => (x :: p) :: ps

/-- Python's `sep.join(parts)` for a single-character separator. -/
def joinWith (sep : Char) : List (List Char) → List Char
  | [] => []
  | p :: ps =>
    match ps with
    | [] => p
    | _ :: _ => p ++ sep :: joinWith sep ps

/-! ### NameSanitizer (`soslib.standardize_table_name`, lines 268-286) -/

/-- One substitution pass of `standardize_table_name`:
`if c in table_name: table_name = '_'.join(table_name.split(c))`. -/
def replacePass (c : Char) (s : List Char) : List Char :=
  if c ∈ s then joinWith '_' (splitOnChar c s) else s

/-- The initial join of `standardize_table_name`:
`table_name = name_parts[0]` followed by
`table_name = '{}_{}'.format(table_name, i)` for each later part. -/
def joinParts (p : List Char) (ps : List (List Char)) : List Char :=
  ps.foldl (fun acc i => acc ++ '_' :: i) p

/-- `soslib.standardize_table_name`: join the parts with `_`, then replace
`:`, `-` and `.` with `_`, in that order.  On the empty list the source
raises `IndexError` at `name_parts[0]`; that is modelled as `none`. -/
def standardize_table_name : List (List Char) → Option (List Char)
  | [] => none
  | p :: ps =>
    some (replacePass '.' (replacePass '-' (replacePass ':' (joinParts p ps))))

/-- The per-character effect of the three substitution passes. -/
def sanitizeChar (x : Char) : Char :=
  if x = ':' then '_'
  else if x = '-' then '_'
  else if x = '.' then '_'
  else x

/-! ### IntervalBucketer (`v.in.sos.py` lines 420-475, `r.in.sos.py` lines 420-451) -/

/-- The bucket keys generated by
`range(epoch_s, epoch_e + 1, seconds_granularity)`
(`v.in.sos.py` line 421, `r.in.sos.py` line 421). -/
def bucketKeys (epoch_s epoch_e granularity : ℤ) : List ℤ :=
  pyRange epoch_s (epoch_e + 1) granularity

/-- The reference linear bucket-assignment scan
(`for interval in intervals.keys(): if interval <= t < interval + granularity:
... break`): the first key whose half-open interval contains `t`, if any
(`v.in.sos.py` lines 463-475, `r.in.sos.py` lines 443-451). -/
def scanAssign (keys : List ℤ) (granularity t : ℤ) : Option ℤ :=
  keys.find? (fun k => decide (k ≤ t) && decide (t < k + granularity))

/-- Written from the spec (§4.3): the recommended `O(1)` direct index
arithmetic `(t - event_time_start) // granularity`; an in-range timestamp is
assigned to the bucket with that index, an out-of-range timestamp (before
`event_time_start` or at/after the last bucket's end) is dropped. -/
def indexAssign (epoch_s epoch_e granularity t : ℤ) : Option ℤ :=
  if epoch_s ≤ t ∧
      t < epoch_s + (bucketKeys epoch_s epoch_e granularity).length * granularity then
    some (epoch_s + (t - epoch_s) / granularity * granularity)
  else
    none

/-! ### Aggregator (`v.in.sos.py` lines 522-526, `r.in.sos.py` lines 489-492) -/

/-- `if options['method'] == 'average': value = sum(values) / len(values)`
`elif options['method'] == 'sum': value = sum(values)`; any other method
string leaves the value undefined (modelled as `none`). -/
def aggregate (method : String) (values : List ℚ) : Option ℚ :=
  if method = "average" then some (pySum values / (values.length : ℚ))
  else if method = "sum" then some (pySum values)
  else none

/-! ### FeatureParser, Variant A (`soslib.xml2geojson`, lines 27-112) -/

/-- One `om:member` block of a tagged-block (text/xml;subtype="om/1.0.0")
response, with the pieces `xml2geojson` reads from it: the procedure name,
the `swe:Quantity` `definition` attributes in document order, the
`swe:TextBlock` separators, the text of `swe:values`, and the geometry block
(whose `srsName`, tag name, and comma-separated coordinates — already decoded
to numbers — are taken from the member's location element). -/
structure Member where
  name : String
  quantityDefs : List String
  tokenSeparator : String
  blockSeparator : String
  valuesText : String
  crsName : String
  geometryType : String
  coordinates : List ℚ
deriving DecidableEq

/-- One output GeoJSON feature: the procedure name, the timestamp-keyed
series of raw value tokens (the remaining `properties` besides `name`), and
the geometry. -/
structure Feature where
  name : String
  series : List (String × String)
  geometryType : String
  coordinates : List ℚ
deriving DecidableEq

/-- The field-index scan of `xml2geojson` (lines 56-71): `current_index`
starts at `1`; a `Quantity` whose `definition` contains the observed
property sets `wanted_index`, any other `Quantity` increments
`current_index`. -/
def resolveIndexAux (op : String) : List String → ℕ → Option ℕ → Option ℕ
  | [], _, wanted => wanted
  | d :: ds, cur, wanted =>
    if pyIn op d then
      resolveIndexAux op ds cur (some cur)
    else
      resolveIndexAux op ds (cur + 1) wanted

/-- The `wanted_index` computed for one member. -/
def resolveIndex (op : String) (defs : List String) : Option ℕ :=
  resolveIndexAux op defs 1 none

/-- `''.join(s.split(c))`: removal of every occurrence of `c`. -/
def removeChar (c : Char) (s : List Char) : List Char :=
  (splitOnChar c s).flatten

/-- Timestamp normalization of `xml2geojson` (lines 90-92): prefix `t`,
then strip every `:`, `-` and `+`. -/
def normalizeTimestamp (s : String) : String :=
  String.mk (removeChar '+' (removeChar '-' (removeChar ':' ('t' :: s.toList))))

/-- Extraction from one data row already split into tokens
(lines 90-95): token `0` is the timestamp, token `wanted_index` is the
value; a missing token is an `IndexError`. -/
def rowEntryTokens (toks : List String) (wanted : ℕ) : Except String (String × String) :=
  match toks.get? 0, toks.get? wanted with
  | some ts, some v => Except.ok (normalizeTimestamp ts, v)
  | _, _ => Except.error "IndexError"

/-- Extraction from one data row string: split on the token separator,
then extract. -/
def rowEntry (tokenSep : String) (wanted : ℕ) (row : String) : Except String (String × String) :=
  rowEntryTokens (row.splitOn tokenSep) wanted

/-- Python dict insertion `data.update({k: v})` on an insertion-ordered
association list: overwrite in place if the key exists, append otherwise. -/
def dictInsert (d : List (String × String)) (kv : String × String) : List (String × String) :=
  match d with
  | [] => [kv]
  | e :: rest => if e.1 = kv.1 then (e.1, kv.2) :: rest else e :: dictInsert rest kv

/-- The series built from a member's `values` text (lines 89-95):
split into rows on the block separator, extract `(timestamp, value)` from
each row, and insert them into the `data` dict in order. -/
def buildSeries (valuesText blockSep tokenSep : String) (wanted : ℕ) :
    Except String (List (String × String)) := do
  let entries ← (valuesText.splitOn blockSep).mapM (rowEntry tokenSep wanted)
  pure (entries.foldl dictInsert [])

/-- Python truthiness of the `crs` variable of `xml2geojson`: initially the
falsy `0` (modelled `none`), afterwards an `srsName` string, truthy iff
non-empty. -/
def crsTruthy : Option String → Bool
  | none => false
  | some s => decide (s ≠ "")

/-- The CRS-consistency loop of `xml2geojson` (lines 39-50): walk every
location's `srsName` in document order; if `crs` is already set (and truthy)
and differs from the next one, raise `ValueError`. -/
def scanCrs : Option String → List String → Except String (Option String)
  | crs, [] => Except.ok crs
  | crs, c :: rest =>
    if crsTruthy crs ∧ crs ≠ some c then
      Except.error "CRS of different points within one offering do not match."
    else
      scanCrs (some c) rest

/-- The per-member body of the second loop of `xml2geojson` (lines 52-110).
Returns the optional emitted feature (`none` when `include` was set to
`False`) together with whether the empty-values warning was emitted.
* no matched field: the `values` element is skipped (`continue`), the
  feature is emitted with an empty series;
* empty `values` text: warning; with `includeEmpty` (flag `-i`,
  `import_empty` in the source) the feature is emitted with an empty series
  (the local assignment `values = 0` in the source is dead — nothing is
  added to `data`), otherwise it is dropped;
* otherwise the series is built from the rows. -/
def processMember (op : String) (includeEmpty : Bool) (m : Member) :
    Except String (Option Feature × Bool) :=
  match resolveIndex op m.quantityDefs with
  | none =>
    Except.ok (some { name := m.name, series := [], geometryType := m.geometryType,
                      coordinates := m.coordinates }, false)
  | some w =>
    if m.valuesText = "" then
      if includeEmpty then
        Except.ok (some { name := m.name, series := [], geometryType := m.geometryType,
                          coordinates := m.coordinates }, true)
      else
        Except.ok (none, true)
    else
      match buildSeries m.valuesText m.blockSeparator m.tokenSeparator w with
      | Except.error e => Except.error e
      | Except.ok series =>
        Except.ok (some { name := m.name, series := series, geometryType := m.geometryType,
                          coordinates := m.coordinates }, false)

/-- The member loop of `xml2geojson`, in document order. -/
def processMembers (op : String) (includeEmpty : Bool) :
    List Member → Except String (List (Option Feature × Bool))
  | [] => Except.ok []
  | m :: ms => do
    let r ← processMember op includeEmpty m
    let rs ← processMembers op includeEmpty ms
    pure (r :: rs)

/-- `soslib.xml2geojson`: the CRS-consistency scan over all locations runs
first (lines 41-50), then the member loop emits the features (lines
52-110).  The result is the emitted feature list plus the number of
empty-values warnings. -/
def xml2geojson (op : String) (includeEmpty : Bool) (members : List Member) :
    Except String (List Feature × ℕ) := do
  let _ ← scanCrs none (members.map Member.crsName)
  let results ← processMembers op includeEmpty members
  Except.ok (results.filterMap Prod.fst, results.countP Prod.snd)

/-! ### Output-table loop (`r.in.sos.py` lines 453-519, `v.in.sos.py` lines 517-537) -/

/-- One per-bucket output table: the bucket key and one row per procedure
holding the aggregated value. -/
structure OutTable where
  bucketKey : ℤ
  rows : List (String × Option ℚ)
deriving DecidableEq

/-- The table-writing pass of `full_maps`
(`for interval in intervals.keys(): if len(intervals[interval]) != 0: ...`):
a table is created only for a bucket whose per-procedure map is non-empty,
with one row per procedure carrying the aggregated value. -/
def fullMapsTables (method : String) (intervals : List (ℤ × List (String × List ℚ))) :
    List OutTable :=
  intervals.filterMap (fun iv =>
    if iv.2.length ≠ 0 then
      some { bucketKey := iv.1, rows := iv.2.map (fun pr => (pr.1, aggregate method pr.2)) }
    else
      none)

/-! ### CoordinateReprojector startup check (`soslib.get_target_crs`, lines 254-265) -/

/-- The `osr.SpatialReference()` object built from the `g.proj -fj` output. -/
structure SpatialReference where
  proj4 : String
deriving DecidableEq

/-- Python equality between an `osr.SpatialReference` (SWIG) object and a
`str`: the types differ and the bindings define no cross-type equality, so
the comparison is always `False`. -/
def pyEqSpatialRefStr (_t : SpatialReference) (_s : String) : Bool :=
  false

/-- `soslib.get_target_crs`: build the target `SpatialReference` from the
`g.proj -fj` output, then
`if target == 'XY location (unprojected)': grass.fatal(...)` — note the
comparison is applied to the `SpatialReference` object `target`, not to the
proj string `target_crs`. -/
def get_target_crs (proj4_output : String) : Except String SpatialReference :=
  let target : SpatialReference := { proj4 := proj4_output }
  if pyEqSpatialRefStr target "XY location (unprojected)" then
    Except.error "Sorry, XY locations are not supported!"
  else
    Except.ok target

/-! ### JSON response path (`soslib.json2geojson`, call sites in
`v.in.sos.py` lines 250-253 and `r.in.sos.py` lines 270-273) -/

/-- The Python exception raised by a call whose positional arguments do not
match the function's parameters. -/
inductive PyCallError
  | typeError
deriving DecidableEq

/-- Python call semantics for `soslib.json2geojson`, which is defined with
exactly one parameter (`def json2geojson(json_file):`): a call with any
other number of positional arguments raises `TypeError` before the body
runs. -/
def callJson2geojson (body : String → String) (args : List String) :
    Except PyCallError String :=
  match args with
  | [a] => Except.ok (body a)
  | _ => Except.error PyCallError.typeError

/-- The `application/json` branch of `main` in `v.in.sos.py` / `r.in.sos.py`:
`for prop in observed_properties: parsed_obs.update({prop:
soslib.json2geojson(obs, prop)})` — each call passes two arguments. -/
def jsonBranchParse (body : String → String) (obs : String) (props : List String) :
    Except PyCallError (List (String × String)) :=
  props.foldlM (fun acc prop => do
    let g ← callJson2geojson body [obs, prop]
    pure (acc ++ [(prop, g)])) []

/-! ### Concrete inputs used by the witnesses and counterexamples -/

/-- A member whose `values` text is empty, with a field matching the
requested property `temperature`. -/
def exampleEmptyMember : Member :=
  { name := "sensor-1", quantityDefs := ["def:temperature"], tokenSeparator := ",",
    blockSeparator := ";", valuesText := "", crsName := "EPSG:4326",
    geometryType := "Point", coordinates := [1, 2, 3] }

/-- The same member declaring a different CRS. -/
def exampleMember3857 : Member :=
  { exampleEmptyMember with name := "sensor-2", crsName := "EPSG:3857" }

/-! ## Theorems -/

/-! ### NameSanitizer lemmas and Claim C6 -/

theorem splitOnChar_ne_nil (c : Char) (s : List Char) : splitOnChar c s ≠ [] := by
  induction s with
  | nil => simp [splitOnChar]
  | cons x xs ih =>
    by_cases hx : x = c
    · simp [splitOnChar, hx]
    · simp only [splitOnChar, if_neg hx]
      cases h : splitOnChar c xs with
      | nil => exact absurd h ih
      | cons p ps => simp

theorem joinWith_cons_cons (sep : Char) (x : Char) (p : List Char) (ps : List (List Char)) :
    joinWith sep ((x :: p) :: ps) = x :: joinWith sep (p :: ps) := by
  cases ps with
  | nil => rfl
  | cons q qs => rfl

theorem splitOnChar_cons_eq (c : Char) (xs : List Char) :
    splitOnChar c (c :: xs) = [] :: splitOnChar c xs := by
  simp [splitOnChar]

theorem splitOnChar_cons_ne (c x : Char) (xs : List Char) (hx : x ≠ c)
    (p : List Char) (ps : List (List Char)) (h : splitOnChar c xs = p :: ps) :
    splitOnChar c (x :: xs) = (x :: p) :: ps := by
  simp only [splitOnChar, if_neg hx, h]

theorem joinWith_splitOnChar (c : Char) (s : List Char) :
    joinWith '_' (splitOnChar c s) = s.map (fun x => if x = c then '_' else x) := by
  induction s with
  | nil => rfl
  | cons x xs ih =>
    by_cases hx : x = c
    · subst hx
      rw [splitOnChar_cons_eq]
      cases h : splitOnChar x xs with
      | nil => exact absurd h (splitOnChar_ne_nil x xs)
      | cons p ps =>
        have h2 : joinWith '_' ([] :: p :: ps) = '_' :: joinWith '_' (p :: ps) := rfl
        rw [h2, ← h, ih, List.map_cons, if_pos rfl]
    · cases h : splitOnChar c xs with
      | nil => exact absurd h (splitOnChar_ne_nil c xs)
      | cons p ps =>
        rw [splitOnChar_cons_ne c x xs hx p ps h, joinWith_cons_cons, ← h, ih,
          List.map_cons, if_neg hx]

theorem replacePass_eq_map (c : Char) (s : List Char) :
    replacePass c s = s.map (fun x => if x = c then '_' else x) := by
  unfold replacePass
  by_cases hc : c ∈ s
  · rw [if_pos hc]
    exact joinWith_splitOnChar c s
  · rw [if_neg hc]
    have h : ∀ x ∈ s, (if x = c then '_' else x) = x := by
      intro x hx
      rw [if_neg]
      rintro rfl
      exact hc hx
    calc s = s.map (fun x => x) := (List.map_id' s).symm
    _ = s.map (fun x => if x = c then '_' else x) := (List.map_congr_left h).symm

theorem standardize_some (p : List Char) (ps : List (List Char)) :
    standardize_table_name (p :: ps) = some ((joinParts p ps).map sanitizeChar) := by
  have hd : standardize_table_name (p :: ps) =
      some (replacePass '.' (replacePass '-' (replacePass ':' (joinParts p ps)))) := rfl
  rw [hd, replacePass_eq_map, replacePass_eq_map, replacePass_eq_map, List.map_map,
    List.map_map]
  congr 1
  apply List.map_congr_left
  intro x _
  simp only [Function.comp]
  by_cases h1 : x = ':'
  · subst h1; decide
  · by_cases h2 : x = '-'
    · subst h2; decide
    · by_cases h3 : x = '.'
      · subst h3; decide
      · simp [sanitizeChar, h1, h2, h3]

theorem sanitizeChar_safe (x : Char) :
    sanitizeChar x ≠ ':' ∧ sanitizeChar x ≠ '-' ∧ sanitizeChar x ≠ '.' := by
  unfold sanitizeChar
  by_cases h1 : x = ':'
  · subst h1; decide
  · by_cases h2 : x = '-'
    · subst h2; decide
    · by_cases h3 : x = '.'
      · subst h3; decide
      · simp only [if_neg h1, if_neg h2, if_neg h3]
        exact ⟨h1, h2, h3⟩

theorem standardize_fixed {t : List Char}
    (h : ∀ x ∈ t, x ≠ ':' ∧ x ≠ '-' ∧ x ≠ '.') :
    standardize_table_name [t] = some t := by
  have hd : standardize_table_name [t] =
      some (replacePass '.' (replacePass '-' (replacePass ':' t))) := rfl
  rw [hd]
  have h1 : replacePass ':' t = t := by
    unfold replacePass
    rw [if_neg (fun hmem => (h ':' hmem).1 rfl)]
  have h2 : replacePass '-' t = t := by
    unfold replacePass
    rw [if_neg (fun hmem => (h '-' hmem).2.1 rfl)]
  have h3 : replacePass '.' t = t := by
    unfold replacePass
    rw [if_neg (fun hmem => (h '.' hmem).2.2 rfl)]
  rw [h1, h2, h3]

/-- Claim C6 counterexample: the sanitizer is not a total function over
ANY list of string parts — on the empty list the source evaluates
`name_parts[0]` and raises `IndexError`, modelled as `none`. -/
theorem claim6_counterexample_empty_parts :
    standardize_table_name [] = none := rfl

/-- Claim C6 (amended to non-empty part lists): on any non-empty list of
parts the sanitizer is pure and total, joins the parts with `_` and
replaces each occurrence of `:`, `-` and `.` with `_` (the three
whole-string passes in the fixed order `:` then `-` then `.` have exactly
this per-character effect); its output contains none of `:`, `-`, `.`;
and it is idempotent — re-sanitizing its own output returns it unchanged. -/
theorem claim6_sanitizer_amended (p : List Char) (ps : List (List Char)) :
    ∃ t, standardize_table_name (p :: ps) = some t ∧
      t = (joinParts p ps).map sanitizeChar ∧
      (∀ x ∈ t, x ≠ ':' ∧ x ≠ '-' ∧ x ≠ '.') ∧
      standardize_table_name [t] = some t := by
  refine ⟨(joinParts p ps).map sanitizeChar, standardize_some p ps, rfl, ?_, ?_⟩
  · intro x hx
    obtain ⟨y, _, rfl⟩ := List.mem_map.1 hx
    exact sanitizeChar_safe y
  · apply standardize_fixed
    intro x hx
    obtain ⟨y, _, rfl⟩ := List.mem_map.1 hx
    exact sanitizeChar_safe y

/-- Witness for the amended C6 at the concrete input `["a:b", "c-d.e"]`. -/
theorem claim6_sanitizer_amended_witness :
    ∃ t, standardize_table_name [['a', ':', 'b'], ['c', '-', 'd', '.', 'e']] = some t ∧
      t = (joinParts ['a', ':', 'b'] [['c', '-', 'd', '.', 'e']]).map sanitizeChar ∧
      (∀ x ∈ t, x ≠ ':' ∧ x ≠ '-' ∧ x ≠ '.') ∧
      standardize_table_name [t] = some t :=
  claim6_sanitizer_amended ['a', ':', 'b'] [['c', '-', 'd', '.', 'e']]

/-! ### IntervalBucketer lemmas and Claims C1, C5 -/

theorem pyRange_eq_nil {start stop step : ℤ} (h : ¬ (start < stop ∧ 0 < step)) :
    pyRange start stop step = [] := by
  rw [pyRange]
  exact dif_neg h

theorem pyRange_eq_cons {start stop step : ℤ} (h1 : start < stop) (h2 : 0 < step) :
    pyRange start stop step = start :: pyRange (start + step) stop step := by
  rw [pyRange]
  exact dif_pos ⟨h1, h2⟩

theorem pyRange_spec_stop {start stop step : ℤ} (hstep : 0 < step) (h : ¬ start < stop) :
    pyRange start stop step =
      (List.range ((stop - start + step - 1) / step).toNat).map
        (fun i : ℕ => start + (i : ℤ) * step) := by
  rw [pyRange_eq_nil (fun hc => h hc.1)]
  have h1 : (stop - start + step - 1) / step < 1 := by
    rw [Int.ediv_lt_iff_lt_mul hstep]
    omega
  have h2 : ((stop - start + step - 1) / step).toNat = 0 := by omega
  rw [h2]
  rfl

theorem pyRange_spec {step : ℤ} (hstep : 0 < step) :
    ∀ fuel : ℕ, ∀ start stop : ℤ, (stop - start).toNat ≤ fuel →
      pyRange start stop step =
        (List.range ((stop - start + step - 1) / step).toNat).map
          (fun i : ℕ => start + (i : ℤ) * step) := by
  intro fuel
  induction fuel with
  | zero =>
    intro start stop hf
    exact pyRange_spec_stop hstep (by omega)
  | succ n ih =>
    intro start stop hf
    by_cases hlt : start < stop
    · rw [pyRange_eq_cons hlt hstep, ih (start + step) stop (by omega)]
      have hnn : 0 ≤ (stop - start - 1) / step :=
        Int.ediv_nonneg (by omega) (by omega)
      have heq : stop - (start + step) + step - 1 = stop - start - 1 := by ring
      have heq2 : stop - start + step - 1 = stop - start - 1 + 1 * step := by ring
      rw [heq, heq2, Int.add_mul_ediv_right _ _ (by omega : step ≠ 0)]
      have h4 : ((stop - start - 1) / step + 1).toNat =
          ((stop - start - 1) / step).toNat + 1 := by omega
      rw [h4, List.range_succ_eq_map, List.map_cons, List.map_map]
      congr 1
      · push_cast
        ring
      · apply List.map_congr_left
        intro i _
        simp only [Function.comp]
        push_cast
        ring
    · exact pyRange_spec_stop hstep hlt

theorem bucketKeys_eq_map (s e g : ℤ) (hg : 0 < g) :
    bucketKeys s e g =
      (List.range ((e - s + g) / g).toNat).map (fun i : ℕ => s + (i : ℤ) * g) := by
  have h := pyRange_spec hg ((e + 1 - s).toNat) s (e + 1) le_rfl
  rw [bucketKeys, h]
  have heq : e + 1 - s + g - 1 = e - s + g := by ring
  rw [heq]

theorem bucketKeys_length (s e g : ℤ) (hg : 0 < g) :
    (bucketKeys s e g).length = ((e - s + g) / g).toNat := by
  rw [bucketKeys_eq_map s e g hg, List.length_map, List.length_range]

theorem mem_bucketKeys {s e g : ℤ} (hg : 0 < g) {k : ℤ} :
    k ∈ bucketKeys s e g ↔ ∃ i : ℕ, k = s + (i : ℤ) * g ∧ k ≤ e := by
  rw [bucketKeys_eq_map s e g hg]
  simp only [List.mem_map, List.mem_range]
  constructor
  · rintro ⟨i, hi, rfl⟩
    refine ⟨i, rfl, ?_⟩
    have h2 : (i : ℤ) + 1 ≤ (e - s + g) / g := by omega
    have h3 : ((i : ℤ) + 1) * g ≤ e - s + g := (Int.le_ediv_iff_mul_le hg).mp h2
    have h4 : ((i : ℤ) + 1) * g = (i : ℤ) * g + g := by ring
    linarith
  · rintro ⟨i, rfl, hle⟩
    refine ⟨i, ?_, rfl⟩
    have h4 : ((i : ℤ) + 1) * g = (i : ℤ) * g + g := by ring
    have h3 : ((i : ℤ) + 1) * g ≤ e - s + g := by linarith
    have h2 : (i : ℤ) + 1 ≤ (e - s + g) / g := (Int.le_ediv_iff_mul_le hg).mpr h3
    omega

theorem bucketKeys_getD (s e g : ℤ) (hg : 0 < g) (i : ℕ)
    (hi : i < (bucketKeys s e g).length) :
    (bucketKeys s e g).getD i 0 = s + (i : ℤ) * g := by
  rw [bucketKeys_length s e g hg] at hi
  rw [bucketKeys_eq_map s e g hg, List.getD_eq_getElem?_getD, List.getElem?_map,
    List.getElem?_range hi]
  rfl

theorem ediv_unique_index {g q r x : ℤ} (hg : 0 < g) (hd : g * q + r = x)
    (hm1 : 0 ≤ r) (hm2 : r < g) {i : ℤ} (h1 : i * g ≤ x) (h2 : x < i * g + g) :
    i = q := by
  have ha : g * i < g * (q + 1) := by
    have e1 : g * i = i * g := mul_comm g i
    have e2 : g * (q + 1) = g * q + g := by ring
    linarith
  have hb : g * q < g * (i + 1) := by
    have e2 : g * (i + 1) = i * g + g := by ring
    linarith
  have hia : i < q + 1 := lt_of_mul_lt_mul_left ha (le_of_lt hg)
  have hib : q < i + 1 := lt_of_mul_lt_mul_left hb (le_of_lt hg)
  omega

theorem bucketKeys_length_ceil (s e g : ℤ) (hse : s ≤ e) (hg : 0 < g) :
    ((bucketKeys s e g).length : ℤ) = ⌈((e - s + 1 : ℤ) : ℚ) / ((g : ℤ) : ℚ)⌉ := by
  have hQnn : 0 ≤ (e - s + g) / g := Int.ediv_nonneg (by omega) (by omega)
  have hlen : ((bucketKeys s e g).length : ℤ) = (e - s + g) / g := by
    rw [bucketKeys_length s e g hg, Int.toNat_of_nonneg hQnn]
  rw [hlen]
  have hd := Int.ediv_add_emod (e - s + g) g
  have hm1 := Int.emod_nonneg (e - s + g) (by omega : g ≠ 0)
  have hm2' := Int.lt_iff_add_one_le.mp (Int.emod_lt_of_pos (e - s + g) hg)
  have hgq : (0 : ℚ) < ((g : ℤ) : ℚ) := by exact_mod_cast hg
  symm
  rw [Int.ceil_eq_iff]
  constructor
  · rw [lt_div_iff₀ hgq]
    have hint : ((e - s + g) / g - 1) * g < e - s + 1 := by
      have hexp : ((e - s + g) / g - 1) * g = g * ((e - s + g) / g) - g := by ring
      linarith
    push_cast
    exact_mod_cast hint
  · rw [div_le_iff₀ hgq]
    have hint : e - s + 1 ≤ (e - s + g) / g * g := by
      have hexp : (e - s + g) / g * g = g * ((e - s + g) / g) := mul_comm _ _
      linarith
    push_cast
    exact_mod_cast hint

/-- Claim C1: for every pair of epoch instants `s ≤ e` and every granularity
`g > 0`, the generated bucket keys partition `[s, e]` into contiguous,
non-overlapping half-open intervals (every in-range instant lies in exactly
one bucket, distinct buckets never share an instant, and consecutive keys
differ by exactly `g`), and the number of buckets is `⌈(e - s + 1) / g⌉`. -/
theorem claim1_bucket_partition (s e g : ℤ) (hse : s ≤ e) (hg : 0 < g) :
    ((bucketKeys s e g).length : ℤ) = ⌈((e - s + 1 : ℤ) : ℚ) / ((g : ℤ) : ℚ)⌉ ∧
    (∀ t : ℤ, s ≤ t → t ≤ e → ∃! k, k ∈ bucketKeys s e g ∧ k ≤ t ∧ t < k + g) ∧
    (∀ k₁ ∈ bucketKeys s e g, ∀ k₂ ∈ bucketKeys s e g, k₁ ≠ k₂ →
      ∀ t : ℤ, ¬ (k₁ ≤ t ∧ t < k₁ + g ∧ k₂ ≤ t ∧ t < k₂ + g)) ∧
    (∀ i : ℕ, i + 1 < (bucketKeys s e g).length →
      (bucketKeys s e g).getD (i + 1) 0 = (bucketKeys s e g).getD i 0 + g) := by
  refine ⟨bucketKeys_length_ceil s e g hse hg, ?_, ?_, ?_⟩
  · intro t hst hte
    have hd := Int.ediv_add_emod (t - s) g
    have hm1 := Int.emod_nonneg (t - s) (by omega : g ≠ 0)
    have hm2 := Int.emod_lt_of_pos (t - s) hg
    have hqnn : 0 ≤ (t - s) / g := Int.ediv_nonneg (by omega) (by omega)
    have hexp : (t - s) / g * g = g * ((t - s) / g) := mul_comm _ _
    refine ⟨s + (t - s) / g * g, ⟨?_, by linarith, by linarith⟩, ?_⟩
    · rw [mem_bucketKeys hg]
      exact ⟨((t - s) / g).toNat, by rw [Int.toNat_of_nonneg hqnn], by linarith⟩
    · rintro k ⟨hkmem, hkt, htk⟩
      rw [mem_bucketKeys hg] at hkmem
      obtain ⟨i, rfl, hke⟩ := hkmem
      have h1 : (i : ℤ) * g ≤ t - s := by linarith
      have h2 : t - s < (i : ℤ) * g + g := by linarith
      rw [ediv_unique_index hg hd hm1 hm2 h1 h2]
  · intro k₁ h₁ k₂ h₂ hne t hcon
    obtain ⟨ha, hb, hc, hd'⟩ := hcon
    rw [mem_bucketKeys hg] at h₁ h₂
    obtain ⟨i₁, rfl, -⟩ := h₁
    obtain ⟨i₂, rfl, -⟩ := h₂
    have hig : 0 ≤ (i₁ : ℤ) * g := mul_nonneg (Int.natCast_nonneg i₁) (le_of_lt hg)
    have hts : 0 ≤ t - s := by linarith
    have hdd := Int.ediv_add_emod (t - s) g
    have hm1 := Int.emod_nonneg (t - s) (by omega : g ≠ 0)
    have hm2 := Int.emod_lt_of_pos (t - s) hg
    have e1 : (i₁ : ℤ) = (t - s) / g :=
      ediv_unique_index hg hdd hm1 hm2 (by linarith) (by linarith)
    have e2 : (i₂ : ℤ) = (t - s) / g :=
      ediv_unique_index hg hdd hm1 hm2 (by linarith) (by linarith)
    exact hne (by rw [e1, e2])
  · intro i hi
    have hi' : i < (bucketKeys s e g).length := by omega
    rw [bucketKeys_getD s e g hg (i + 1) hi, bucketKeys_getD s e g hg i hi']
    push_cast
    ring

/-- Witness for C1 at `event_time_start = 0`, `event_time_end = 9`,
`granularity = 4` (three buckets `0, 4, 8`). -/
theorem claim1_bucket_partition_witness :
    (0 : ℤ) ≤ 9 ∧ (0 : ℤ) < 4 ∧
      (((bucketKeys 0 9 4).length : ℤ) = ⌈((9 - 0 + 1 : ℤ) : ℚ) / ((4 : ℤ) : ℚ)⌉ ∧
      (∀ t : ℤ, 0 ≤ t → t ≤ 9 → ∃! k, k ∈ bucketKeys 0 9 4 ∧ k ≤ t ∧ t < k + 4) ∧
      (∀ k₁ ∈ bucketKeys 0 9 4, ∀ k₂ ∈ bucketKeys 0 9 4, k₁ ≠ k₂ →
        ∀ t : ℤ, ¬ (k₁ ≤ t ∧ t < k₁ + 4 ∧ k₂ ≤ t ∧ t < k₂ + 4)) ∧
      (∀ i : ℕ, i + 1 < (bucketKeys 0 9 4).length →
        (bucketKeys 0 9 4).getD (i + 1) 0 = (bucketKeys 0 9 4).getD i 0 + 4)) :=
  ⟨by decide, by decide, claim1_bucket_partition 0 9 4 (by decide) (by decide)⟩

theorem find?_eq_some_of_unique {α : Type} {p : α → Bool} {b : α} :
    ∀ l : List α, b ∈ l → p b = true → (∀ a ∈ l, p a = true → a = b) →
      l.find? p = some b := by
  intro l
  induction l with
  | nil =>
    intro h _ _
    cases h
  | cons x xs ih =>
    intro hmem hpb huniq
    by_cases hx : p x = true
    · have hxb : x = b := huniq x (List.mem_cons_self x xs) hx
      rw [List.find?_cons_of_pos xs hx, hxb]
    · rw [List.find?_cons_of_neg xs hx]
      refine ih ?_ hpb ?_
      · rcases List.mem_cons.1 hmem with h | h
        · exact absurd (h ▸ hpb) hx
        · exact h
      · intro a ha hpa
        exact huniq a (List.mem_cons_of_mem x ha) hpa

/-- Claim C5: for every in-range timestamp the bucket found by the reference
linear scan over the generated keys is exactly the bucket computed by the
spec's direct index arithmetic `(t - event_time_start) // granularity`, and
out-of-range timestamps are assigned to no bucket by both. -/
theorem claim5_scan_matches_index_arithmetic (s e g : ℤ) (hse : s ≤ e) (hg : 0 < g) :
    ∀ t : ℤ, scanAssign (bucketKeys s e g) g t = indexAssign s e g t := by
  intro t
  unfold indexAssign scanAssign
  by_cases hin : s ≤ t ∧ t < s + ((bucketKeys s e g).length : ℤ) * g
  · rw [if_pos hin]
    obtain ⟨hst, hlt⟩ := hin
    have hd := Int.ediv_add_emod (t - s) g
    have hm1 := Int.emod_nonneg (t - s) (by omega : g ≠ 0)
    have hm2 := Int.emod_lt_of_pos (t - s) hg
    have hqnn : 0 ≤ (t - s) / g := Int.ediv_nonneg (by omega) (by omega)
    have hexp : (t - s) / g * g = g * ((t - s) / g) := mul_comm _ _
    have hQ : ((bucketKeys s e g).length : ℤ) = (e - s + g) / g := by
      rw [bucketKeys_length s e g hg,
        Int.toNat_of_nonneg (Int.ediv_nonneg (by omega) (by omega))]
    apply find?_eq_some_of_unique
    · rw [mem_bucketKeys hg]
      refine ⟨((t - s) / g).toNat, by rw [Int.toNat_of_nonneg hqnn], ?_⟩
      have hq1 : (t - s) / g < ((bucketKeys s e g).length : ℤ) := by
        rw [Int.ediv_lt_iff_lt_mul hg]
        linarith
      have hL := Int.ediv_add_emod (e - s + g) g
      have hLm1 := Int.emod_nonneg (e - s + g) (by omega : g ≠ 0)
      have hLm2' := Int.lt_iff_add_one_le.mp (Int.emod_lt_of_pos (e - s + g) hg)
      have hq2 : (t - s) / g ≤ (e - s + g) / g - 1 := by
        rw [hQ] at hq1
        omega
      have hmul : g * ((t - s) / g) ≤ g * ((e - s + g) / g - 1) :=
        mul_le_mul_of_nonneg_left hq2 (le_of_lt hg)
      have hring : g * ((e - s + g) / g - 1) = g * ((e - s + g) / g) - g := by ring
      linarith
    · simp only [Bool.and_eq_true, decide_eq_true_eq]
      exact ⟨by linarith, by linarith⟩
    · rintro k hk hpk
      simp only [Bool.and_eq_true, decide_eq_true_eq] at hpk
      rw [mem_bucketKeys hg] at hk
      obtain ⟨i, rfl, hke⟩ := hk
      have h1 : (i : ℤ) * g ≤ t - s := by linarith [hpk.1]
      have h2 : t - s < (i : ℤ) * g + g := by linarith [hpk.2]
      rw [ediv_unique_index hg hd hm1 hm2 h1 h2]
  · rw [if_neg hin]
    rw [List.find?_eq_none]
    intro k hk
    rw [mem_bucketKeys hg] at hk
    obtain ⟨i, rfl, hke⟩ := hk
    simp only [Bool.and_eq_true, decide_eq_true_eq]
    intro hcon
    obtain ⟨hkt, htk⟩ := hcon
    have hinn : 0 ≤ (i : ℤ) * g := mul_nonneg (Int.natCast_nonneg i) (le_of_lt hg)
    have hst : s ≤ t := by linarith
    have hQ : ((bucketKeys s e g).length : ℤ) = (e - s + g) / g := by
      rw [bucketKeys_length s e g hg,
        Int.toNat_of_nonneg (Int.ediv_nonneg (by omega) (by omega))]
    have hiL : (i : ℤ) + 1 ≤ ((bucketKeys s e g).length : ℤ) := by
      have hig : (i : ℤ) * g ≤ e - s := by linarith
      have hidiv : (i : ℤ) ≤ (e - s) / g := (Int.le_ediv_iff_mul_le hg).mpr hig
      have hsplit : (e - s + g) / g = (e - s) / g + 1 := by
        have h5 : e - s + g = e - s + 1 * g := by ring
        rw [h5, Int.add_mul_ediv_right _ _ (by omega : g ≠ 0)]
      rw [hQ, hsplit]
      linarith
    have hfin : t < s + ((bucketKeys s e g).length : ℤ) * g := by
      have hmul : ((i : ℤ) + 1) * g ≤ ((bucketKeys s e g).length : ℤ) * g :=
        mul_le_mul_of_nonneg_right hiL (le_of_lt hg)
      have hexp2 : ((i : ℤ) + 1) * g = (i : ℤ) * g + g := by ring
      linarith
    exact hin ⟨hst, hfin⟩

/-- Witness for C5 at `event_time_start = 0`, `event_time_end = 9`,
`granularity = 4`. -/
theorem claim5_scan_matches_index_arithmetic_witness :
    (0 : ℤ) ≤ 9 ∧ (0 : ℤ) < 4 ∧
      ∀ t : ℤ, scanAssign (bucketKeys 0 9 4) 4 t = indexAssign 0 9 4 t :=
  ⟨by decide, by decide, claim5_scan_matches_index_arithmetic 0 9 4 (by decide) (by decide)⟩

/-! ### Aggregator lemmas and Claim C2 -/

theorem foldl_add_eq (l : List ℚ) : ∀ a : ℚ, l.foldl (fun acc v => acc + v) a = a + l.sum := by
  induction l with
  | nil =>
    intro a
    simp
  | cons x xs ih =>
    intro a
    simp only [List.foldl_cons, List.sum_cons, ih (a + x)]
    ring

theorem pySum_eq_sum (l : List ℚ) : pySum l = l.sum := by
  unfold pySum
  rw [foldl_add_eq l 0]
  ring

/-- Claim C2: for every non-empty list of (finite) numbers, the `sum`
aggregation method returns the total and the `average` method returns the
total divided by the length (floats modelled as exact rationals). -/
theorem claim2_aggregation_correct (L : List ℚ) (h : L ≠ []) :
    aggregate "sum" L = some L.sum ∧
    aggregate "average" L = some (L.sum / (L.length : ℚ)) := by
  constructor
  · unfold aggregate
    rw [if_neg (by decide : ¬ ("sum" = "average")), if_pos rfl, pySum_eq_sum]
  · unfold aggregate
    rw [if_pos rfl, pySum_eq_sum]

/-- Witness for C2 at `L = [5, 7]` (sum `12`, average `6`). -/
theorem claim2_aggregation_correct_witness :
    (([(5 : ℚ), 7] : List ℚ) ≠ []) ∧
      (aggregate "sum" [(5 : ℚ), 7] = some ([(5 : ℚ), 7] : List ℚ).sum ∧
       aggregate "average" [(5 : ℚ), 7] =
         some (([(5 : ℚ), 7] : List ℚ).sum / ((([(5 : ℚ), 7] : List ℚ).length : ℚ)))) :=
  ⟨by decide, claim2_aggregation_correct [(5 : ℚ), 7] (by decide)⟩

/-! ### Field-index resolution lemmas and Claim C3 -/

theorem resolveIndexAux_all_false (op : String) :
    ∀ ds : List String, (∀ d ∈ ds, pyIn op d = false) →
      ∀ cur : ℕ, ∀ w : Option ℕ, resolveIndexAux op ds cur w = w := by
  intro ds
  induction ds with
  | nil =>
    intro _ cur w
    rfl
  | cons d ds ih =>
    intro hall cur w
    have hd : pyIn op d = false := hall d (List.mem_cons_self d ds)
    simp only [resolveIndexAux, hd, Bool.false_eq_true, if_false]
    exact ih (fun x hx => hall x (List.mem_cons_of_mem d hx)) (cur + 1) w

theorem resolveIndexAux_match (op : String) :
    ∀ ds : List String, ∀ j : ℕ, j < ds.length →
      pyIn op (ds.getD j "") = true →
      (∀ k, k < ds.length → k ≠ j → pyIn op (ds.getD k "") = false) →
      ∀ cur : ℕ, ∀ w : Option ℕ, resolveIndexAux op ds cur w = some (cur + j) := by
  intro ds
  induction ds with
  | nil =>
    intro j hj
    exact absurd hj (by simp)
  | cons d ds ih =>
    intro j hj hmatch huniq cur w
    cases j with
    | zero =>
      have hd : pyIn op d = true := hmatch
      simp only [resolveIndexAux, hd, if_true]
      have hall : ∀ x ∈ ds, pyIn op x = false := by
        intro x hx
        obtain ⟨i, hilen, hix⟩ := List.mem_iff_getElem.mp hx
        have h1 : (d :: ds).getD (i + 1) "" = x := by
          rw [List.getD_eq_getElem?_getD]
          simp [List.getElem?_cons_succ, List.getElem?_eq_getElem hilen, hix]
        have h2 := huniq (i + 1) (by simp; omega) (by omega)
        rw [h1] at h2
        exact h2
      rw [resolveIndexAux_all_false op ds hall cur (some cur)]
      norm_num
    | succ j' =>
      have hd : pyIn op d = false := huniq 0 (by simp) (by omega)
      simp only [resolveIndexAux, hd, Bool.false_eq_true, if_false]
      have hlen : j' < ds.length := by
        simp at hj
        omega
      have hmatch' : pyIn op (ds.getD j' "") = true := hmatch
      have huniq' : ∀ k, k < ds.length → k ≠ j' → pyIn op (ds.getD k "") = false := by
        intro k hk hkj
        exact huniq (k + 1) (by simp; omega) (by omega)
      rw [ih j' hlen hmatch' huniq' (cur + 1) w]
      congr 1
      omega

/-- Claim C3: when exactly one declared quantity field's semantic definition
contains the requested observed property as a substring (say the `j`-th,
0-based, among the quantity fields in declaration order), the parser's scan
records the 1-based positional row index `j + 1` (index `0` being the row's
timestamp token), and the row extraction at that index depends only on the
timestamp token and the matched field's token — all other fields' values are
ignored. -/
theorem claim3_field_index_resolution (op : String) (defs : List String) (j : ℕ)
    (hj : j < defs.length) (hmatch : pyIn op (defs.getD j "") = true)
    (huniq : ∀ k, k < defs.length → k ≠ j → pyIn op (defs.getD k "") = false) :
    resolveIndex op defs = some (j + 1) ∧
    ∀ t1 t2 : List String, t1.get? 0 = t2.get? 0 → t1.get? (j + 1) = t2.get? (j + 1) →
      rowEntryTokens t1 (j + 1) = rowEntryTokens t2 (j + 1) := by
  constructor
  · unfold resolveIndex
    rw [resolveIndexAux_match op defs j hj hmatch huniq 1 none]
    congr 1
    omega
  · intro t1 t2 h0 hw
    unfold rowEntryTokens
    rw [h0, hw]

/-- Witness for C3 at the spec's example block
`[("temp", "def:temperature"), ("press", "def:pressure")]` with requested
property `temperature`: the selected index is `1`. -/
theorem claim3_field_index_resolution_witness :
    (0 < (["def:temperature", "def:pressure"] : List String).length) ∧
    pyIn "temperature" ((["def:temperature", "def:pressure"] : List String).getD 0 "") = true ∧
    (∀ k, k < (["def:temperature", "def:pressure"] : List String).length → k ≠ 0 →
      pyIn "temperature" ((["def:temperature", "def:pressure"] : List String).getD k "") = false) ∧
    (resolveIndex "temperature" ["def:temperature", "def:pressure"] = some (0 + 1) ∧
      ∀ t1 t2 : List String, t1.get? 0 = t2.get? 0 → t1.get? (0 + 1) = t2.get? (0 + 1) →
        rowEntryTokens t1 (0 + 1) = rowEntryTokens t2 (0 + 1)) :=
  ⟨by decide, by decide, by decide,
    claim3_field_index_resolution "temperature" ["def:temperature", "def:pressure"] 0
      (by decide) (by decide) (by decide)⟩

/-! ### CRS-mismatch and empty-values behaviour: Claims C4, C7 -/

/-- Claim C4: parsing a tagged-block response in which two procedures
declare different (truthy) CRS names raises the CRS-mismatch `ValueError`,
and — because the CRS scan over all locations runs before the member loop —
the whole parse fails before any feature is emitted. -/
theorem claim4_crs_mismatch_error (op : String) (ie : Bool) (m1 m2 : Member)
    (rest : List Member) (h1 : m1.crsName ≠ "") (h2 : m1.crsName ≠ m2.crsName) :
    xml2geojson op ie (m1 :: m2 :: rest) =
      Except.error "CRS of different points within one offering do not match." := by
  unfold xml2geojson
  have hscan : scanCrs none ((m1 :: m2 :: rest).map Member.crsName) =
      Except.error "CRS of different points within one offering do not match." := by
    simp [scanCrs, crsTruthy, h1, h2]
  rw [hscan]
  rfl

/-- Witness for C4: two members declaring `EPSG:4326` then `EPSG:3857`. -/
theorem claim4_crs_mismatch_error_witness :
    (exampleEmptyMember.crsName ≠ "") ∧
    (exampleEmptyMember.crsName ≠ exampleMember3857.crsName) ∧
    xml2geojson "temperature" false (exampleEmptyMember :: exampleMember3857 :: []) =
      Except.error "CRS of different points within one offering do not match." :=
  ⟨by decide, by decide,
    claim4_crs_mismatch_error "temperature" false exampleEmptyMember exampleMember3857 []
      (by decide) (by decide)⟩

/-- Claim C7 counterexample: with import-empty enabled and an empty values
payload, the parser emits exactly one feature but its series is EMPTY —
there is no key mapped to `0` (the source's `values = 0` assignment is
dead), contradicting the claimed "series with a single key mapped to 0". -/
theorem claim7_counterexample_zero_series :
    xml2geojson "temperature" true [exampleEmptyMember] =
      Except.ok ([{ name := "sensor-1", series := [], geometryType := "Point",
                    coordinates := [1, 2, 3] }], 1) ∧
    ({ name := "sensor-1", series := [], geometryType := "Point",
       coordinates := [1, 2, 3] : Feature }).series.length = 0 :=
  ⟨rfl, rfl⟩

/-- Claim C7 (amended): in the tagged-block parser, a procedure with a
matched quantity field and an empty values text produces zero features
when import-empty is disabled, and exactly one feature with an empty series
when it is enabled; the user-facing warning is emitted in both cases (the
warning count is `1`). -/
theorem claim7_empty_values_amended (op : String) (m : Member) (w : ℕ)
    (hmatch : resolveIndex op m.quantityDefs = some w) (hempty : m.valuesText = "") :
    xml2geojson op false [m] = Except.ok ([], 1) ∧
    xml2geojson op true [m] =
      Except.ok ([{ name := m.name, series := [], geometryType := m.geometryType,
                    coordinates := m.coordinates }], 1) := by
  have hscan : scanCrs none ([m].map Member.crsName) = Except.ok (some m.crsName) := by
    simp [scanCrs, crsTruthy]
  have hfalse : processMember op false m = Except.ok (none, true) := by
    unfold processMember
    rw [hmatch]
    simp [hempty]
  have htrue : processMember op true m =
      Except.ok (some { name := m.name, series := [], geometryType := m.geometryType,
                        coordinates := m.coordinates }, true) := by
    unfold processMember
    rw [hmatch]
    simp [hempty]
  constructor
  · unfold xml2geojson
    rw [hscan]
    show (processMembers op false [m]).bind _ = _
    rw [show processMembers op false [m] = Except.ok [(none, true)] by
      simp [processMembers, hfalse]
      rfl]
    rfl
  · unfold xml2geojson
    rw [hscan]
    show (processMembers op true [m]).bind _ = _
    rw [show processMembers op true [m] =
        Except.ok [(some { name := m.name, series := [], geometryType := m.geometryType,
                           coordinates := m.coordinates }, true)] by
      simp [processMembers, htrue]
      rfl]
    rfl

/-- Witness for the amended C7 at the concrete empty-values member. -/
theorem claim7_empty_values_amended_witness :
    resolveIndex "temperature" exampleEmptyMember.quantityDefs = some 1 ∧
    exampleEmptyMember.valuesText = "" ∧
    (xml2geojson "temperature" false [exampleEmptyMember] = Except.ok ([], 1) ∧
     xml2geojson "temperature" true [exampleEmptyMember] =
       Except.ok ([{ name := exampleEmptyMember.name, series := [],
                     geometryType := exampleEmptyMember.geometryType,
                     coordinates := exampleEmptyMember.coordinates }], 1)) :=
  ⟨rfl, rfl,
    claim7_empty_values_amended "temperature" exampleEmptyMember 1 rfl rfl⟩

/-! ### Empty-bucket omission: Claim C8 -/

/-- Claim C8: a bucket to which zero values were assigned is never
materialized — the table-writing pass produces no table for an interval
whose per-procedure map is empty, every emitted table stems from a
non-empty bucket and has at least one row, and the number of emitted
tables is exactly the number of non-empty buckets. -/
theorem claim8_empty_buckets_skipped (method : String)
    (intervals : List (ℤ × List (String × List ℚ))) :
    (∀ tb ∈ fullMapsTables method intervals, tb.rows ≠ []) ∧
    (∀ tb ∈ fullMapsTables method intervals,
      ∃ iv ∈ intervals, tb.bucketKey = iv.1 ∧ iv.2 ≠ []) ∧
    (fullMapsTables method intervals).length =
      intervals.countP (fun iv => !iv.2.isEmpty) := by
  refine ⟨?_, ?_, ?_⟩
  · intro tb htb
    rw [fullMapsTables, List.mem_filterMap] at htb
    obtain ⟨iv, hiv, hf⟩ := htb
    by_cases hc : iv.2.length ≠ 0
    · rw [if_pos hc] at hf
      obtain rfl := Option.some.inj hf
      show iv.2.map (fun pr => (pr.1, aggregate method pr.2)) ≠ []
      intro hnil
      rw [List.map_eq_nil_iff] at hnil
      rw [hnil] at hc
      exact hc rfl
    · rw [if_neg hc] at hf
      exact Option.noConfusion hf
  · intro tb htb
    rw [fullMapsTables, List.mem_filterMap] at htb
    obtain ⟨iv, hiv, hf⟩ := htb
    by_cases hc : iv.2.length ≠ 0
    · rw [if_pos hc] at hf
      obtain rfl := Option.some.inj hf
      refine ⟨iv, hiv, rfl, ?_⟩
      intro hnil
      rw [hnil] at hc
      exact hc rfl
    · rw [if_neg hc] at hf
      exact Option.noConfusion hf
  · rw [fullMapsTables, List.length_filterMap_eq_countP]
    apply List.countP_congr
    intro iv _
    cases h2 : iv.2 with
    | nil => simp [h2]
    | cons a l => simp [h2]

/-- Witness for C8 at one non-empty bucket (key `0`) and one empty bucket
(key `60`): exactly one table is emitted, for the non-empty bucket. -/
theorem claim8_empty_buckets_skipped_witness :
    (∀ tb ∈ fullMapsTables "average" [((0 : ℤ), [("s1", [(5 : ℚ), 7])]), (60, [])],
      tb.rows ≠ []) ∧
    (∀ tb ∈ fullMapsTables "average" [((0 : ℤ), [("s1", [(5 : ℚ), 7])]), (60, [])],
      ∃ iv ∈ [((0 : ℤ), [("s1", [(5 : ℚ), 7])]), (60, [])],
        tb.bucketKey = iv.1 ∧ iv.2 ≠ []) ∧
    (fullMapsTables "average" [((0 : ℤ), [("s1", [(5 : ℚ), 7])]), (60, [])]).length =
      ([((0 : ℤ), [("s1", [(5 : ℚ), 7])]), (60, [])] :
        List (ℤ × List (String × List ℚ))).countP (fun iv => !iv.2.isEmpty) :=
  claim8_empty_buckets_skipped "average" [((0 : ℤ), [("s1", [(5 : ℚ), 7])]), (60, [])]

/-! ### Startup CRS check: Claim C9 (code bug) -/

/-- Claim C9 is violated by the code: the source compares the
`SpatialReference` OBJECT (not the proj string) with the string
`'XY location (unprojected)'`, which is always false, so even when the host
reports an unprojected XY location `get_target_crs` returns normally and no
fatal configuration error is raised. -/
theorem claim9_xy_check_never_fires :
    get_target_crs "XY location (unprojected)" =
      Except.ok { proj4 := "XY location (unprojected)" } := rfl

/-! ### JSON path arity mismatch: Claim C10 -/

/-- Claim C10: `soslib.json2geojson` takes one parameter but both call
sites pass two arguments, so whenever the `application/json` response
format is selected (and at least one observed property is iterated) the
JSON parsing path raises `TypeError` before any feature is produced —
for every possible function body. -/
theorem claim10_json_call_type_error (body : String → String) (obs : String)
    (props : List String) (h : props ≠ []) :
    jsonBranchParse body obs props = Except.error PyCallError.typeError := by
  cases props with
  | nil => exact absurd rfl h
  | cons p ps => rfl

/-- Witness for C10 with one observed property. -/
theorem claim10_json_call_type_error_witness :
    ((["temperature"] : List String) ≠ []) ∧
      jsonBranchParse (fun s => s) "payload" ["temperature"] =
        Except.error PyCallError.typeError :=
  ⟨by decide, claim10_json_call_type_error (fun s => s) "payload" ["temperature"] (by decide)⟩
